import Mathlib

/-!
Shallow embedding of the Geode `Interface` scheduling façade
(`loader/include/Geode/loader/Interface.hpp`) and the parts of `Mod` it
drives.  The `Interface` class buffers hook requests, log records, API
exports and load callbacks while no `Mod*` is attached, and `init(Mod*)`
flushes the buffers into the real module.

Pointers are modelled as `Nat` identities; the compile-time template
parameters `<auto Detour, template<class, class...> class Convention>` of
`addHook` are collapsed into a single `Nat` tag identifying the
instantiation (each instantiation yields one distinct
`&Mod::addHook<Detour, Convention>` pointer-to-member value).
-/

namespace Geode

/-- Log severity (`Severity` from Types.hpp, not under src/); the façade
only forwards it opaquely, so it is modelled as a plain numeric tag. -/
abbrev Severity := Nat

/-- `Result<T>` from utils/Result.hpp (not under src/): a success carrying a
value or an error carrying diagnostic text. -/
inductive Result (α : Type) where
  | ok (value : α)
  | err (error : String)
  deriving DecidableEq, Repr

/-- Whether a `Result` is a success. -/
def Result.isOk {α : Type} : Result α → Bool
  | .ok _ => true
  | .err _ => false

/-- Type-erased member-function pointer (`unknownmemfn_t`), modelled as a
pointer identity. -/
abbrev Unknownmemfn := Nat

/-- Type-erased free-function pointer (`unknownfn_t`), modelled as a
pointer identity. -/
abbrev Unknownfn := Nat

/-- `std::variant<unknownmemfn_t, unknownfn_t>`: `inl` is the
member-function alternative, `inr` the free-function alternative,
matching the variant's declaration order. -/
abbrev ErasedFn := Sum Unknownmemfn Unknownfn

/-- `Interface::ScheduledHook`: display name, target address, and the
captured pointer-to-member `&Mod::addHook<Detour, Convention>`
(`m_addFunction`), the latter identified by its instantiation tag. -/
structure ScheduledHook where
  m_displayName : String
  m_address : Nat
  m_addFunction : Nat
  deriving DecidableEq, Repr

/-- `Interface::ScheduledLog`: message text and severity. -/
structure ScheduledLog where
  m_info : String
  m_severity : Severity
  deriving DecidableEq, Repr

/-- `Interface::ScheduledExport`: selector string and the type-erased
function variant. -/
structure ScheduledExport where
  m_selector : String
  m_func : ErasedFn
  deriving DecidableEq, Repr

/-- An observable invocation on a `Mod`: a call of an install operation, a
forwarded log record, a forwarded export, or a load callback run. -/
inductive ModEvent where
  | installCall (conv : Nat) (displayName : String) (address : Nat)
  | logRecord (info : String) (severity : Severity)
  | exportRecord (selector : String) (func : ErasedFn)
  | loadCall (fn : Nat)
  deriving DecidableEq, Repr

/-- A hook record held by a `Mod` after a successful install: target
address, display name, the instantiation tag of the install operation that
created it, and the runtime handle returned to the caller. -/
structure InstalledHook where
  address : Nat
  displayName : String
  conv : Nat
  handle : Nat
  deriving DecidableEq, Repr

/-- Modelled from the spec: the `Mod` class (Mod.hpp is not under src/).
Per the spec a Module "owns the list of installed hooks, owns logging,
owns the table of exported API functions"; here it additionally records
the trace of invocations it observes, which is what the testable
properties of the spec quantify over. -/
structure Mod where
  events : List ModEvent
  hooks : List InstalledHook
  exports : List (String × ErasedFn)
  nextHandle : Nat
  deriving DecidableEq, Repr

/-- A freshly constructed `Mod` with no hooks, exports or observed
invocations; handles start at 1 so that a real handle is never the null
pointer. -/
def Mod.fresh : Mod :=
  { events := [], hooks := [], exports := [], nextHandle := 1 }

/-- Modelled from the spec: `Mod::addHook<Detour, Convention>(displayName,
address)` (body not under src/).  The spec makes the Module "the only
component authorized to perform physical hook installation", with backend
error kinds including "duplicate hook", and states the invariant that a
Hook is never installed twice at the same address without first being
removed; so a duplicate address yields an error and installs nothing,
while a fresh address installs a hook and returns its non-null handle.
The invocation itself is always recorded in the event trace. -/
def Mod.addHook (m : Mod) (conv : Nat) (displayName : String) (address : Nat) :
    Result (Option Nat) × Mod :=
  let m' := { m with events := m.events ++ [ModEvent.installCall conv displayName address] }
  if m'.hooks.any (fun h => h.address = address) then
    (.err "duplicate hook", m')
  else
    (.ok (some m'.nextHandle),
     { m' with
        hooks := m'.hooks ++ [InstalledHook.mk address displayName conv m'.nextHandle],
        nextHandle := m'.nextHandle + 1 })

/-- Modelled from the spec: forwarding a (message, severity) pair to the
Module's logger (the logger "accepts (message, severity)"); observable as
one log record in the trace. -/
def Mod.logForward (m : Mod) (info : String) (severity : Severity) : Mod :=
  { m with events := m.events ++ [ModEvent.logRecord info severity] }

/-- Modelled from the spec: adding an entry to the Module's export table;
"re-exporting the same selector overwrites" the previous entry.  The
forwarded (selector, function) pair is recorded in the trace. -/
def Mod.addExport (m : Mod) (selector : String) (func : ErasedFn) : Mod :=
  { m with
      events := m.events ++ [ModEvent.exportRecord selector func],
      exports := (m.exports.filter (fun e => e.1 ≠ selector)) ++ [(selector, func)] }

/-- Modelled from the spec: invoking a load callback (`loadfn_t`) with the
Module pointer; the callback is opaque external code, so the observable is
the invocation itself. -/
def Mod.invokeLoadFn (m : Mod) (fn : Nat) : Mod :=
  { m with events := m.events ++ [ModEvent.loadCall fn] }

/-- The `Log` object produced by `Mod::log()`: a logging proxy bound to its
owning module (LogPtr machinery is not under src/; only the binding to the
owner is observable here). -/
structure Log where
  owner : Mod
  deriving DecidableEq, Repr

/-- Modelled from the spec: `Mod::log()` returns the module's logging
handle bound to that module. -/
def Mod.log (m : Mod) : Log := ⟨m⟩

/-- The mutable state of the `Interface` singleton: the attached `Mod*`
(null while unattached, modelled as `Option`) and the four scheduling
buffers, in declaration order. -/
structure Interface where
  m_mod : Option Mod
  m_scheduledHooks : List ScheduledHook
  m_scheduledLogs : List ScheduledLog
  m_scheduledExports : List ScheduledExport
  m_scheduledFunctions : List Nat
  deriving DecidableEq, Repr

/-- The `Interface` as constructed: `m_mod = nullptr` and all four buffers
empty. -/
def Interface.initial : Interface :=
  { m_mod := none, m_scheduledHooks := [], m_scheduledLogs := [],
    m_scheduledExports := [], m_scheduledFunctions := [] }

/-- `Interface::addHook<Detour, Convention>(displayName, address)`
(Interface.hpp lines 116-123): if `m_mod` is set, delegate to
`m_mod->addHook<Detour, Convention>(displayName, address)` and return its
result; otherwise push a `ScheduledHook` capturing the display name, the
address and `&Mod::addHook<Detour, Convention>`, and return
`Ok<Hook*>(nullptr)`. -/
def Interface.addHook (conv : Nat) (displayName : String) (address : Nat)
    (self : Interface) : Result (Option Nat) × Interface :=
  match self.m_mod with
  | some m =>
      let r := m.addHook conv displayName address
      (r.1, { self with m_mod := some r.2 })
  | none =>
      (.ok none,
       { self with m_scheduledHooks :=
          self.m_scheduledHooks ++ [ScheduledHook.mk displayName address conv] })

/-- `Interface::addHook<Detour, Convention>(address)` (Interface.hpp lines
105-108): the overload without a display name, which calls the
two-argument overload with the empty string. -/
def Interface.addHookAddr (conv : Nat) (address : Nat)
    (self : Interface) : Result (Option Nat) × Interface :=
  Interface.addHook conv "" address self

/-- Modelled from the spec: the body of `Interface::logInfo` (declared
GEODE_DLL at Interface.hpp line 133, defined out of src/): "if attached,
forwards immediately; else buffers as `ScheduledLog`". -/
def Interface.logInfo (info : String) (severity : Severity)
    (self : Interface) : Interface :=
  match self.m_mod with
  | some m => { self with m_mod := some (m.logForward info severity) }
  | none =>
      { self with m_scheduledLogs := self.m_scheduledLogs ++ [ScheduledLog.mk info severity] }

/-- Modelled from the spec: the body of `Interface::scheduleOnLoad`
(declared GEODE_DLL at Interface.hpp line 135, defined out of src/).  The
spec's buffer invariant ("after the Module is attached, buffers must be
empty and stay empty") together with its recommended
immediate-invoke-if-already-attached semantics gives: if attached, invoke
the callback with the module now; else buffer it. -/
def Interface.scheduleOnLoad (fn : Nat) (self : Interface) : Interface :=
  match self.m_mod with
  | some m => { self with m_mod := some (m.invokeLoadFn fn) }
  | none =>
      { self with m_scheduledFunctions := self.m_scheduledFunctions ++ [fn] }

/-- Modelled from the spec: the member-function overload of
`Interface::exportAPIFunctionInternal` (declared GEODE_DLL at
Interface.hpp line 138, defined out of src/): forwards the (selector,
erased function) pair to the Module's export table when attached, else
buffers a `ScheduledExport`. -/
def Interface.exportAPIFunctionInternalMem (selector : String)
    (fn : Unknownmemfn) (self : Interface) : Interface :=
  match self.m_mod with
  | some m => { self with m_mod := some (m.addExport selector (Sum.inl fn)) }
  | none =>
      { self with m_scheduledExports :=
          self.m_scheduledExports ++ [ScheduledExport.mk selector (Sum.inl fn)] }

/-- Modelled from the spec: the free-function overload of
`Interface::exportAPIFunctionInternal` (declared GEODE_DLL at
Interface.hpp line 139, defined out of src/): forwards when attached, else
buffers a `ScheduledExport`. -/
def Interface.exportAPIFunctionInternalFree (selector : String)
    (fn : Unknownfn) (self : Interface) : Interface :=
  match self.m_mod with
  | some m => { self with m_mod := some (m.addExport selector (Sum.inr fn)) }
  | none =>
      { self with m_scheduledExports :=
          self.m_scheduledExports ++ [ScheduledExport.mk selector (Sum.inr fn)] }

/-- The argument of `Interface::exportAPIFunction<T>`: the compile-time
kind of the pointer `T` (member-function pointer or free-function
pointer), carrying the pointer identity. -/
inductive APIFnPtr where
  | memberFn (p : Nat)
  | freeFn (p : Nat)
  deriving DecidableEq, Repr

/-- `Interface::exportAPIFunction(selector, ptr)` (Interface.hpp lines
142-150): `if constexpr (std::is_member_function_pointer_v<decltype(ptr)>)`
type-erases `ptr` via `reference_cast<unknownmemfn_t>` and calls the
member-function internal overload, else type-erases via
`reinterpret_cast<unknownfn_t>` and calls the free-function internal
overload.  The casts are pointer-identity-preserving erasures. -/
def Interface.exportAPIFunction (selector : String) (ptr : APIFnPtr)
    (self : Interface) : Interface :=
  match ptr with
  | .memberFn p => self.exportAPIFunctionInternalMem selector p
  | .freeFn p => self.exportAPIFunctionInternalFree selector p

/-- Modelled from the spec: the body of `Interface::init(Mod*)` (declared
GEODE_DLL at Interface.hpp line 89, defined out of src/): attaches the
module, then in order (1) replays every `ScheduledHook` by calling the
captured install operation with (displayName, address) against the module,
discarding the returned result, (2) replays every `ScheduledLog` to the
module's logger, (3) replays every `ScheduledExport` to the module's
export table, (4) invokes every `ScheduledFunction` with the module; then
all four buffers are cleared. -/
def Interface.init (m : Mod) (self : Interface) : Interface :=
  let m1 := self.m_scheduledHooks.foldl
    (fun acc h => (acc.addHook h.m_addFunction h.m_displayName h.m_address).2) m
  let m2 := self.m_scheduledLogs.foldl
    (fun acc l => acc.logForward l.m_info l.m_severity) m1
  let m3 := self.m_scheduledExports.foldl
    (fun acc e => acc.addExport e.m_selector e.m_func) m2
  let m4 := self.m_scheduledFunctions.foldl
    (fun acc f => acc.invokeLoadFn f) m3
  { m_mod := some m4, m_scheduledHooks := [], m_scheduledLogs := [],
    m_scheduledExports := [], m_scheduledFunctions := [] }

/-- One scheduling call on the façade, used to quantify over call
sequences: the two `addHook` overloads, `logInfo`, `exportAPIFunction`
and `scheduleOnLoad`. -/
inductive SchedOp where
  | hook (conv : Nat) (displayName : String) (address : Nat)
  | hookAddr (conv : Nat) (address : Nat)
  | log (info : String) (severity : Severity)
  | exportFn (selector : String) (ptr : APIFnPtr)
  | onLoad (fn : Nat)
  deriving DecidableEq, Repr

/-- The state transition of one scheduling call (any returned `Result` is
projected away; `Interface.runOpResult` recovers it). -/
def Interface.runOp (self : Interface) (op : SchedOp) : Interface :=
  match op with
  | .hook c n a => (self.addHook c n a).2
  | .hookAddr c a => (self.addHookAddr c a).2
  | .log i sev => self.logInfo i sev
  | .exportFn sel p => self.exportAPIFunction sel p
  | .onLoad f => self.scheduleOnLoad f

/-- The value a scheduling call returns to its caller: the two `addHook`
overloads return a `Result<Hook*>`, the other scheduling calls return
void (`none`). -/
def Interface.runOpResult (self : Interface) (op : SchedOp) :
    Option (Result (Option Nat)) :=
  match op with
  | .hook c n a => some (self.addHook c n a).1
  | .hookAddr c a => some (self.addHookAddr c a).1
  | .log _ _ => none
  | .exportFn _ _ => none
  | .onLoad _ => none

/-- A sequence of scheduling calls, applied left to right. -/
def Interface.runOps (self : Interface) (ops : List SchedOp) : Interface :=
  ops.foldl Interface.runOp self

/-- The event trace observed by the attached module (empty while no module
is attached). -/
def Interface.modEvents (self : Interface) : List ModEvent :=
  match self.m_mod with
  | some m => m.events
  | none => []

/-- The hooks installed in the attached module (empty while no module is
attached). -/
def Interface.modHooks (self : Interface) : List InstalledHook :=
  match self.m_mod with
  | some m => m.hooks
  | none => []

/-- All four scheduling buffers are empty. -/
def Interface.buffersEmpty (self : Interface) : Prop :=
  self.m_scheduledHooks = [] ∧ self.m_scheduledLogs = [] ∧
  self.m_scheduledExports = [] ∧ self.m_scheduledFunctions = []

instance (self : Interface) : Decidable self.buffersEmpty := by
  unfold Interface.buffersEmpty
  infer_instance

/-! ### The `Interface::get` singleton (Interface.hpp lines 74-77)

`get()` is `static Interface* ret = create(); return ret;`: a
function-local static initialized once by `create()`.  Pointers are `Nat`
with `0` as `nullptr`; the function-local static is an `Option Nat`
(`none` = not yet initialized). -/

/-- Modelled from the spec: `Interface::create()` (declared GEODE_DLL at
Interface.hpp line 43, defined out of src/) constructs the process-wide
instance and returns a non-null pointer to it; it does not depend on a
`Mod` existing. -/
def Interface.create : Nat := 1

/-- One call of `Interface::get()` against the function-local static
`ret`: if already initialized, return the stored pointer unchanged; on
the first call, run `create()`, store the pointer and return it.  The
third component records whether this call performed the construction. -/
def Interface.getCall : Option Nat → Nat × Option Nat × Bool
  | some p => (p, some p, false)
  | none => (Interface.create, some Interface.create, true)

/-- `n` successive calls of `Interface::get()`: the list of returned
pointers (in call order), the final static state, and how many calls
performed a construction. -/
def Interface.getCalls : Nat → Option Nat → List Nat × Option Nat × Nat
  | 0, st => ([], st, 0)
  | n + 1, st =>
      let c := Interface.getCall st
      let rest := Interface.getCalls n c.2.1
      (c.1 :: rest.1, rest.2.1, (if c.2.2 then 1 else 0) + rest.2.2)

/-! ### Static accessors (Interface.hpp lines 79-87, 155-162)

These take the singleton's pointee state as argument; dereferencing a
possibly-null `Mod*` is modelled in `Option`, where `none` marks the
null-pointer dereference that C++ leaves undefined. -/

/-- `Interface::mod()` (deprecated, Interface.hpp lines 79-82):
`return Interface::get()->m_mod;`. -/
def Interface.modAccessor (self : Interface) : Option Mod :=
  self.m_mod

/-- `Mod::get<void>()` (Interface.hpp lines 155-158):
`return Interface::get()->m_mod;`. -/
def Mod.getVoid (self : Interface) : Option Mod :=
  self.m_mod

/-- `Interface::log()` (deprecated, Interface.hpp lines 84-87):
`return Interface::get()->m_mod->log();` — the arrow dereference of
`m_mod` is only defined when a `Mod` is attached (`none` otherwise). -/
def Interface.logAccessor (self : Interface) : Option Log :=
  self.m_mod.map Mod.log

/-- `Log::get()` (Interface.hpp lines 160-162):
`return Mod::get()->log();`, with the same null-dereference caveat. -/
def Log.get (self : Interface) : Option Log :=
  (Mod.getVoid self).map Mod.log

/-! ### Per-buffer projections of a scheduling call -/

/-- The `ScheduledHook` entry a call buffers when unattached (`none` for
calls that buffer into another queue). -/
def SchedOp.hookEntry : SchedOp → Option ScheduledHook
  | .hook c n a => some (ScheduledHook.mk n a c)
  | .hookAddr c a => some (ScheduledHook.mk "" a c)
  | _ => none

/-- The `ScheduledLog` entry a call buffers when unattached. -/
def SchedOp.logEntry : SchedOp → Option ScheduledLog
  | .log i sev => some (ScheduledLog.mk i sev)
  | _ => none

/-- The `ScheduledExport` entry a call buffers when unattached. -/
def SchedOp.exportEntry : SchedOp → Option ScheduledExport
  | .exportFn sel (.memberFn p) => some (ScheduledExport.mk sel (Sum.inl p))
  | .exportFn sel (.freeFn p) => some (ScheduledExport.mk sel (Sum.inr p))
  | _ => none

/-- The load callback a call buffers when unattached. -/
def SchedOp.loadEntry : SchedOp → Option Nat
  | .onLoad f => some f
  | _ => none

/-- The invocation the module observes when a buffered `ScheduledHook` is
replayed: the captured install operation called with (displayName,
address). -/
def ScheduledHook.toEvent (h : ScheduledHook) : ModEvent :=
  .installCall h.m_addFunction h.m_displayName h.m_address

/-- The invocation the module observes when a buffered `ScheduledLog` is
replayed. -/
def ScheduledLog.toEvent (l : ScheduledLog) : ModEvent :=
  .logRecord l.m_info l.m_severity

/-- The invocation the module observes when a buffered `ScheduledExport`
is replayed. -/
def ScheduledExport.toEvent (e : ScheduledExport) : ModEvent :=
  .exportRecord e.m_selector e.m_func

/-! ### Lemmas about single operations -/

/-- `Mod::addHook` records exactly one install invocation. -/
lemma Mod.addHook_events (m : Mod) (c : Nat) (n : String) (a : Nat) :
    ((m.addHook c n a).2).events = m.events ++ [ModEvent.installCall c n a] := by
  unfold Mod.addHook
  by_cases h : (m.hooks.any (fun h => h.address = a)) = true <;> simp [h]

/-- `Mod::addHook` never removes hooks: the hook list is extended by at
most the newly installed record. -/
lemma Mod.addHook_hooks (m : Mod) (c : Nat) (n : String) (a : Nat) :
    ((m.addHook c n a).2).hooks = m.hooks ∨
    ((m.addHook c n a).2).hooks =
      m.hooks ++ [InstalledHook.mk a n c m.nextHandle] := by
  unfold Mod.addHook
  by_cases h : (m.hooks.any (fun h => h.address = a)) = true <;> simp [h]

/-- `Mod::addHook` preserves distinctness of installed-hook addresses:
a duplicate address is rejected with an error instead of installed. -/
lemma Mod.addHook_nodup (m : Mod) (c : Nat) (n : String) (a : Nat)
    (h : (m.hooks.map (fun h => h.address)).Nodup) :
    (((m.addHook c n a).2).hooks.map (fun h => h.address)).Nodup := by
  unfold Mod.addHook
  by_cases hdup : (m.hooks.any (fun h => h.address = a)) = true
  · simpa [hdup] using h
  · have hall : ∀ x ∈ m.hooks, ¬x.address = a := by
      simpa using hdup
    rw [if_neg hdup]
    simp only [List.map_append, List.map_cons, List.map_nil]
    rw [List.nodup_append]
    refine ⟨h, List.nodup_singleton _, ?_⟩
    intro x hx hx'
    simp only [List.mem_singleton] at hx'
    subst hx'
    obtain ⟨hk, hkmem, rfl⟩ := List.mem_map.mp hx
    exact hall hk hkmem rfl

/-- The non-install operations on a `Mod` leave its hook list unchanged. -/
lemma Mod.hooks_untouched (m : Mod) (i sel : String) (sev f : Nat)
    (fn : ErasedFn) :
    (m.logForward i sev).hooks = m.hooks ∧
    (m.addExport sel fn).hooks = m.hooks ∧
    (m.invokeLoadFn f).hooks = m.hooks := by
  constructor
  · rfl
  constructor <;> rfl

/-! ### Lemmas about unattached scheduling -/

/-- While unattached, one scheduling call leaves `m_mod` null and appends
exactly its entry to exactly its buffer. -/
lemma Interface.runOp_unattached (s : Interface) (op : SchedOp)
    (h : s.m_mod = none) :
    (s.runOp op).m_mod = none ∧
    (s.runOp op).m_scheduledHooks = s.m_scheduledHooks ++ op.hookEntry.toList ∧
    (s.runOp op).m_scheduledLogs = s.m_scheduledLogs ++ op.logEntry.toList ∧
    (s.runOp op).m_scheduledExports =
      s.m_scheduledExports ++ op.exportEntry.toList ∧
    (s.runOp op).m_scheduledFunctions =
      s.m_scheduledFunctions ++ op.loadEntry.toList := by
  cases op with
  | hook c n a =>
      simp [Interface.runOp, Interface.addHook, h, SchedOp.hookEntry,
        SchedOp.logEntry, SchedOp.exportEntry, SchedOp.loadEntry]
  | hookAddr c a =>
      simp [Interface.runOp, Interface.addHookAddr, Interface.addHook, h,
        SchedOp.hookEntry, SchedOp.logEntry, SchedOp.exportEntry,
        SchedOp.loadEntry]
  | log i sev =>
      simp [Interface.runOp, Interface.logInfo, h, SchedOp.hookEntry,
        SchedOp.logEntry, SchedOp.exportEntry, SchedOp.loadEntry]
  | exportFn sel p =>
      cases p <;>
        simp [Interface.runOp, Interface.exportAPIFunction,
          Interface.exportAPIFunctionInternalMem,
          Interface.exportAPIFunctionInternalFree, h, SchedOp.hookEntry,
          SchedOp.logEntry, SchedOp.exportEntry, SchedOp.loadEntry]
  | onLoad f =>
      simp [Interface.runOp, Interface.scheduleOnLoad, h, SchedOp.hookEntry,
        SchedOp.logEntry, SchedOp.exportEntry, SchedOp.loadEntry]

/-- While unattached, a sequence of scheduling calls leaves `m_mod` null
and each buffer accumulates exactly its entries, in call order. -/
lemma Interface.runOps_unattached (ops : List SchedOp) (s : Interface)
    (h : s.m_mod = none) :
    (s.runOps ops).m_mod = none ∧
    (s.runOps ops).m_scheduledHooks =
      s.m_scheduledHooks ++ ops.filterMap SchedOp.hookEntry ∧
    (s.runOps ops).m_scheduledLogs =
      s.m_scheduledLogs ++ ops.filterMap SchedOp.logEntry ∧
    (s.runOps ops).m_scheduledExports =
      s.m_scheduledExports ++ ops.filterMap SchedOp.exportEntry ∧
    (s.runOps ops).m_scheduledFunctions =
      s.m_scheduledFunctions ++ ops.filterMap SchedOp.loadEntry := by
  induction ops generalizing s with
  | nil => simp [Interface.runOps, h]
  | cons op rest ih =>
      obtain ⟨h1, h2, h3, h4, h5⟩ := s.runOp_unattached op h
      have step : s.runOps (op :: rest) = (s.runOp op).runOps rest := rfl
      obtain ⟨g1, g2, g3, g4, g5⟩ := ih (s.runOp op) h1
      refine ⟨by rw [step, g1], ?_, ?_, ?_, ?_⟩ <;>
        rw [step] <;>
        simp only [g2, g3, g4, g5, h2, h3, h4, h5, List.filterMap_cons,
          List.append_assoc]
      · cases hE : op.hookEntry <;> simp [hE, Option.toList]
      · cases hE : op.logEntry <;> simp [hE, Option.toList]
      · cases hE : op.exportEntry <;> simp [hE, Option.toList]
      · cases hE : op.loadEntry <;> simp [hE, Option.toList]

/-! ### Lemmas about the flush -/

/-- Replaying a buffered hook list appends one install invocation per
entry, in buffer order. -/
lemma Mod.replayHooks_events (hooks : List ScheduledHook) (m : Mod) :
    (hooks.foldl
      (fun acc h => (acc.addHook h.m_addFunction h.m_displayName h.m_address).2)
      m).events = m.events ++ hooks.map ScheduledHook.toEvent := by
  induction hooks generalizing m with
  | nil => simp
  | cons h rest ih =>
      simp only [List.foldl_cons, List.map_cons, ih,
        Mod.addHook_events, List.append_assoc, List.cons_append,
        List.nil_append, ScheduledHook.toEvent]

/-- Replaying a buffered log list appends one log record per entry, in
buffer order. -/
lemma Mod.replayLogs_events (logs : List ScheduledLog) (m : Mod) :
    (logs.foldl (fun acc l => acc.logForward l.m_info l.m_severity) m).events
      = m.events ++ logs.map ScheduledLog.toEvent := by
  induction logs generalizing m with
  | nil => simp
  | cons l rest ih =>
      rw [List.foldl_cons, ih]
      simp [Mod.logForward, ScheduledLog.toEvent]

/-- Replaying a buffered export list appends one export record per entry,
in buffer order. -/
lemma Mod.replayExports_events (exps : List ScheduledExport) (m : Mod) :
    (exps.foldl (fun acc e => acc.addExport e.m_selector e.m_func) m).events
      = m.events ++ exps.map ScheduledExport.toEvent := by
  induction exps generalizing m with
  | nil => simp
  | cons e rest ih =>
      rw [List.foldl_cons, ih]
      simp [Mod.addExport, ScheduledExport.toEvent]

/-- Running the buffered load callbacks appends one callback invocation
per entry, in buffer order. -/
lemma Mod.replayLoadFns_events (fns : List Nat) (m : Mod) :
    (fns.foldl (fun acc f => acc.invokeLoadFn f) m).events
      = m.events ++ fns.map ModEvent.loadCall := by
  induction fns generalizing m with
  | nil => simp
  | cons f rest ih =>
      rw [List.foldl_cons, ih]
      simp [Mod.invokeLoadFn]

/-- The flush replays the four buffers in order — hooks, then logs, then
exports, then load callbacks — one invocation per entry. -/
lemma Interface.init_modEvents (s : Interface) (m : Mod) :
    (s.init m).modEvents =
      m.events ++ s.m_scheduledHooks.map ScheduledHook.toEvent
        ++ s.m_scheduledLogs.map ScheduledLog.toEvent
        ++ s.m_scheduledExports.map ScheduledExport.toEvent
        ++ s.m_scheduledFunctions.map ModEvent.loadCall := by
  simp only [Interface.init, Interface.modEvents, Mod.replayLoadFns_events,
    Mod.replayExports_events, Mod.replayLogs_events, Mod.replayHooks_events]

/-- Replaying a buffered hook list preserves distinctness of
installed-hook addresses. -/
lemma Mod.replayHooks_nodup (hooks : List ScheduledHook) (m : Mod)
    (h : (m.hooks.map (fun hk => hk.address)).Nodup) :
    ((hooks.foldl
      (fun acc hk => (acc.addHook hk.m_addFunction hk.m_displayName hk.m_address).2)
      m).hooks.map (fun hk => hk.address)).Nodup := by
  induction hooks generalizing m with
  | nil => simpa using h
  | cons hk rest ih =>
      exact ih _ (m.addHook_nodup hk.m_addFunction hk.m_displayName hk.m_address h)

/-- The log, export and load-callback replays leave the module's hook
list untouched. -/
lemma Interface.init_modHooks (s : Interface) (m : Mod) :
    (s.init m).modHooks =
      (s.m_scheduledHooks.foldl
        (fun acc hk =>
          (acc.addHook hk.m_addFunction hk.m_displayName hk.m_address).2)
        m).hooks := by
  have hlogs : ∀ (logs : List ScheduledLog) (mm : Mod),
      (logs.foldl (fun acc l => acc.logForward l.m_info l.m_severity) mm).hooks
        = mm.hooks := by
    intro logs
    induction logs with
    | nil => intro mm; rfl
    | cons l rest ih => intro mm; simpa using ih (mm.logForward l.m_info l.m_severity)
  have hexps : ∀ (exps : List ScheduledExport) (mm : Mod),
      (exps.foldl (fun acc e => acc.addExport e.m_selector e.m_func) mm).hooks
        = mm.hooks := by
    intro exps
    induction exps with
    | nil => intro mm; rfl
    | cons e rest ih => intro mm; simpa using ih (mm.addExport e.m_selector e.m_func)
  have hfns : ∀ (fns : List Nat) (mm : Mod),
      (fns.foldl (fun acc f => acc.invokeLoadFn f) mm).hooks = mm.hooks := by
    intro fns
    induction fns with
    | nil => intro mm; rfl
    | cons f rest ih => intro mm; simpa using ih (mm.invokeLoadFn f)
  simp only [Interface.init, Interface.modHooks, hfns, hexps, hlogs]

/-! ### Lemmas about attached scheduling -/

/-- While attached, one scheduling call keeps a module attached and leaves
all four buffers exactly as they were. -/
lemma Interface.runOp_attached (s : Interface) (m : Mod) (op : SchedOp)
    (h : s.m_mod = some m) :
    (∃ m', (s.runOp op).m_mod = some m') ∧
    (s.runOp op).m_scheduledHooks = s.m_scheduledHooks ∧
    (s.runOp op).m_scheduledLogs = s.m_scheduledLogs ∧
    (s.runOp op).m_scheduledExports = s.m_scheduledExports ∧
    (s.runOp op).m_scheduledFunctions = s.m_scheduledFunctions := by
  cases op with
  | hook c n a => simp [Interface.runOp, Interface.addHook, h]
  | hookAddr c a =>
      simp [Interface.runOp, Interface.addHookAddr, Interface.addHook, h]
  | log i sev => simp [Interface.runOp, Interface.logInfo, h]
  | exportFn sel p =>
      cases p <;>
        simp [Interface.runOp, Interface.exportAPIFunction,
          Interface.exportAPIFunctionInternalMem,
          Interface.exportAPIFunctionInternalFree, h]
  | onLoad f => simp [Interface.runOp, Interface.scheduleOnLoad, h]

/-- One scheduling call preserves distinctness of the attached module's
installed-hook addresses. -/
lemma Interface.runOp_nodup (s : Interface) (op : SchedOp)
    (h : (s.modHooks.map (fun hk => hk.address)).Nodup) :
    ((s.runOp op).modHooks.map (fun hk => hk.address)).Nodup := by
  cases hm : s.m_mod with
  | none =>
      have h1 := (s.runOp_unattached op hm).1
      simp [Interface.modHooks, h1]
  | some m =>
      have hh : s.modHooks = m.hooks := by simp [Interface.modHooks, hm]
      rw [hh] at h
      cases op with
      | hook c n a =>
          simpa [Interface.runOp, Interface.addHook, hm, Interface.modHooks]
            using m.addHook_nodup c n a h
      | hookAddr c a =>
          simpa [Interface.runOp, Interface.addHookAddr, Interface.addHook, hm,
            Interface.modHooks] using m.addHook_nodup c "" a h
      | log i sev =>
          simpa [Interface.runOp, Interface.logInfo, hm, Interface.modHooks,
            Mod.logForward] using h
      | exportFn sel p =>
          cases p <;>
            simpa [Interface.runOp, Interface.exportAPIFunction,
              Interface.exportAPIFunctionInternalMem,
              Interface.exportAPIFunctionInternalFree, hm, Interface.modHooks,
              Mod.addExport] using h
      | onLoad f =>
          simpa [Interface.runOp, Interface.scheduleOnLoad, hm,
            Interface.modHooks, Mod.invokeLoadFn] using h

/-- A sequence of scheduling calls preserves distinctness of the attached
module's installed-hook addresses. -/
lemma Interface.runOps_nodup (ops : List SchedOp) (s : Interface)
    (h : (s.modHooks.map (fun hk => hk.address)).Nodup) :
    ((s.runOps ops).modHooks.map (fun hk => hk.address)).Nodup := by
  induction ops generalizing s with
  | nil => exact h
  | cons op rest ih => exact ih (s.runOp op) (s.runOp_nodup op h)

/-- Evaluating `n` calls of `get()` on an already-initialized static
returns the stored pointer every time and never constructs. -/
lemma Interface.getCalls_initialized (n p : Nat) :
    Interface.getCalls n (some p) = (List.replicate n p, some p, 0) := by
  induction n with
  | zero => rfl
  | succ k ih => simp [Interface.getCalls, Interface.getCall, ih, List.replicate_succ]

/-! ### Claim theorems -/

/-- C1: for every sequence of scheduling calls made while no Mod is
attached, `init(module)` replays the buffered entries against the module
in order — first every ScheduledHook (invoking the captured install
operation with (displayName, address)), then every ScheduledLog, then
every ScheduledExport, then every ScheduledFunction — with registration
order preserved within each buffer, exactly one invocation per scheduled
entry, and all four buffers empty afterwards. -/
theorem interface_init_replays_in_order (ops : List SchedOp) (m0 : Mod) :
    ((Interface.runOps Interface.initial ops).init m0).modEvents
      = m0.events
        ++ (ops.filterMap SchedOp.hookEntry).map ScheduledHook.toEvent
        ++ (ops.filterMap SchedOp.logEntry).map ScheduledLog.toEvent
        ++ (ops.filterMap SchedOp.exportEntry).map ScheduledExport.toEvent
        ++ (ops.filterMap SchedOp.loadEntry).map ModEvent.loadCall
    ∧ ((Interface.runOps Interface.initial ops).init m0).buffersEmpty := by
  obtain ⟨h1, h2, h3, h4, h5⟩ :=
    Interface.runOps_unattached ops Interface.initial rfl
  constructor
  · rw [Interface.init_modEvents, h2, h3, h4, h5]
    simp [Interface.initial]
  · simp [Interface.init, Interface.buffersEmpty]

/-- C2: while no Mod is attached, `addHook(displayName, address)` appends
one ScheduledHook capturing the display name, the address and the
instantiation's `&Mod::addHook` pointer-to-member, and returns a
successful result whose payload is a null Hook pointer. -/
theorem addHook_unattached_buffers (s : Interface) (conv : Nat) (n : String)
    (a : Nat) (h : s.m_mod = none) :
    Interface.addHook conv n a s =
      (Result.ok none,
       { s with m_scheduledHooks :=
          s.m_scheduledHooks ++ [ScheduledHook.mk n a conv] }) := by
  simp [Interface.addHook, h]

/-- Witness for C2 at a concrete unattached state. -/
theorem addHook_unattached_buffers_witness :
    Interface.addHook 2 "hk" 4660 Interface.initial =
      (Result.ok none,
       { Interface.initial with m_scheduledHooks :=
          Interface.initial.m_scheduledHooks ++ [ScheduledHook.mk "hk" 4660 2] }) :=
  addHook_unattached_buffers Interface.initial 2 "hk" 4660 rfl

/-- C3: while a Mod is attached, `addHook(displayName, address)` buffers
nothing: it delegates to the Mod's own `addHook` and returns exactly that
call's result, leaving all scheduling buffers unchanged (only the attached
module's state advances). -/
theorem addHook_attached_delegates (s : Interface) (m : Mod) (conv : Nat)
    (n : String) (a : Nat) (h : s.m_mod = some m) :
    (Interface.addHook conv n a s).1 = (m.addHook conv n a).1 ∧
    (Interface.addHook conv n a s).2 =
      { s with m_mod := some (m.addHook conv n a).2 } := by
  constructor <;> simp [Interface.addHook, h]

/-- Witness for C3 at a concrete attached state. -/
theorem addHook_attached_delegates_witness :
    (Interface.addHook 3 "w" 7 (Interface.init Mod.fresh Interface.initial)).1
        = (Mod.fresh.addHook 3 "w" 7).1 ∧
    (Interface.addHook 3 "w" 7 (Interface.init Mod.fresh Interface.initial)).2
        = { Interface.init Mod.fresh Interface.initial with
              m_mod := some (Mod.fresh.addHook 3 "w" 7).2 } :=
  addHook_attached_delegates (Interface.init Mod.fresh Interface.initial)
    Mod.fresh 3 "w" 7 rfl

/-- C4: the scheduling buffers are append-only while unattached (each call
appends exactly its own entry to its own buffer), the flush at `init`
clears all four buffers, and once a Mod is attached every scheduling call
keeps the module attached and the buffers empty — no operation re-enters
buffering mode. -/
theorem interface_buffer_invariants :
    (∀ (s : Interface) (op : SchedOp), s.m_mod = none →
        (s.runOp op).m_scheduledHooks =
          s.m_scheduledHooks ++ op.hookEntry.toList ∧
        (s.runOp op).m_scheduledLogs =
          s.m_scheduledLogs ++ op.logEntry.toList ∧
        (s.runOp op).m_scheduledExports =
          s.m_scheduledExports ++ op.exportEntry.toList ∧
        (s.runOp op).m_scheduledFunctions =
          s.m_scheduledFunctions ++ op.loadEntry.toList) ∧
    (∀ (s : Interface) (m : Mod), (s.init m).buffersEmpty) ∧
    (∀ (s : Interface) (op : SchedOp), s.m_mod ≠ none → s.buffersEmpty →
        (s.runOp op).m_mod ≠ none ∧ (s.runOp op).buffersEmpty) := by
  refine ⟨?_, ?_, ?_⟩
  · intro s op h
    exact (s.runOp_unattached op h).2
  · intro s m
    simp [Interface.init, Interface.buffersEmpty]
  · intro s op hmod hbuf
    obtain ⟨m, hm⟩ := Option.ne_none_iff_exists'.mp hmod
    obtain ⟨⟨m', hm'⟩, e1, e2, e3, e4⟩ := s.runOp_attached m op hm
    obtain ⟨b1, b2, b3, b4⟩ := hbuf
    refine ⟨by simp [hm'], ?_, ?_, ?_, ?_⟩ <;> simp_all

/-- Witness for C4 at concrete states: an unattached log call appends its
entry, and a post-attach log call keeps the buffers empty. -/
theorem interface_buffer_invariants_witness :
    ((Interface.initial.runOp (SchedOp.log "boot" 1)).m_scheduledHooks =
        Interface.initial.m_scheduledHooks ++ (SchedOp.log "boot" 1).hookEntry.toList ∧
      (Interface.initial.runOp (SchedOp.log "boot" 1)).m_scheduledLogs =
        Interface.initial.m_scheduledLogs ++ (SchedOp.log "boot" 1).logEntry.toList ∧
      (Interface.initial.runOp (SchedOp.log "boot" 1)).m_scheduledExports =
        Interface.initial.m_scheduledExports ++ (SchedOp.log "boot" 1).exportEntry.toList ∧
      (Interface.initial.runOp (SchedOp.log "boot" 1)).m_scheduledFunctions =
        Interface.initial.m_scheduledFunctions ++ (SchedOp.log "boot" 1).loadEntry.toList) ∧
    (((Interface.init Mod.fresh Interface.initial).runOp
        (SchedOp.log "x" 0)).m_mod ≠ none ∧
      ((Interface.init Mod.fresh Interface.initial).runOp
        (SchedOp.log "x" 0)).buffersEmpty) :=
  ⟨interface_buffer_invariants.1 Interface.initial (SchedOp.log "boot" 1) rfl,
   interface_buffer_invariants.2.2 (Interface.init Mod.fresh Interface.initial)
     (SchedOp.log "x" 0) (by decide) (by decide)⟩

/-- C5: no scheduling call can fail — while unattached every call that
returns a result returns a success (the other calls return void) — and
any error a façade call ever surfaces is exactly the result of the
attached Mod's own install operation. -/
theorem scheduling_cannot_fail :
    (∀ (s : Interface) (op : SchedOp) (r : Result (Option Nat)),
        s.m_mod = none → s.runOpResult op = some r → r.isOk = true) ∧
    (∀ (s : Interface) (op : SchedOp) (r : Result (Option Nat)),
        s.runOpResult op = some r → r.isOk = false →
        ∃ (m : Mod) (c : Nat) (n : String) (a : Nat),
          s.m_mod = some m ∧ r = (m.addHook c n a).1) := by
  constructor
  · intro s op r h hr
    cases op with
    | hook c n a =>
        simp only [Interface.runOpResult, Interface.addHook, h,
          Option.some.injEq] at hr
        subst hr
        rfl
    | hookAddr c a =>
        simp only [Interface.runOpResult, Interface.addHookAddr,
          Interface.addHook, h, Option.some.injEq] at hr
        subst hr
        rfl
    | log i sev => simp [Interface.runOpResult] at hr
    | exportFn sel p => simp [Interface.runOpResult] at hr
    | onLoad f => simp [Interface.runOpResult] at hr
  · intro s op r hr hfail
    cases op with
    | hook c n a =>
        cases hm : s.m_mod with
        | none =>
            simp only [Interface.runOpResult, Interface.addHook, hm,
              Option.some.injEq] at hr
            subst hr
            simp [Result.isOk] at hfail
        | some m =>
            simp only [Interface.runOpResult, Interface.addHook, hm,
              Option.some.injEq] at hr
            exact ⟨m, c, n, a, rfl, hr.symm⟩
    | hookAddr c a =>
        cases hm : s.m_mod with
        | none =>
            simp only [Interface.runOpResult, Interface.addHookAddr,
              Interface.addHook, hm, Option.some.injEq] at hr
            subst hr
            simp [Result.isOk] at hfail
        | some m =>
            simp only [Interface.runOpResult, Interface.addHookAddr,
              Interface.addHook, hm, Option.some.injEq] at hr
            exact ⟨m, c, "", a, rfl, hr.symm⟩
    | log i sev => simp [Interface.runOpResult] at hr
    | exportFn sel p => simp [Interface.runOpResult] at hr
    | onLoad f => simp [Interface.runOpResult] at hr

/-- Witness for C5: a concrete unattached `addHook` call's result is a
success. -/
theorem scheduling_cannot_fail_witness :
    (Result.ok (none : Option Nat)).isOk = true :=
  scheduling_cannot_fail.1 Interface.initial (SchedOp.hook 1 "h" 5)
    (Result.ok none) rfl rfl

/-- C6: `Interface::get()` constructs the instance exactly once on the
first call, every later call returns the same pointer, and the returned
pointer is never null; the model involves no Mod at all. -/
theorem interface_get_idempotent (n : Nat) :
    Interface.getCalls (n + 1) none =
      (List.replicate (n + 1) Interface.create, some Interface.create, 1) ∧
    Interface.create ≠ 0 := by
  constructor
  · simp [Interface.getCalls, Interface.getCall,
      Interface.getCalls_initialized, List.replicate_succ]
  · decide

/-- Witness for C6: three calls on a fresh static return the same non-null
pointer and construct once. -/
theorem interface_get_idempotent_witness :
    Interface.getCalls 3 none = ([1, 1, 1], some 1, 1) ∧
    Interface.create ≠ 0 :=
  interface_get_idempotent 2

/-- C7: `exportAPIFunction(selector, ptr)` dispatches on the
member-versus-free kind of the pointer to the matching internal overload
with the correspondingly erased function, forwarding to the attached
Mod's export table when attached and appending a `ScheduledExport` when
not. -/
theorem exportAPIFunction_dispatch :
    (∀ (sel : String) (p : Nat) (s : Interface),
        Interface.exportAPIFunction sel (APIFnPtr.memberFn p) s =
          s.exportAPIFunctionInternalMem sel p ∧
        Interface.exportAPIFunction sel (APIFnPtr.freeFn p) s =
          s.exportAPIFunctionInternalFree sel p) ∧
    (∀ (sel : String) (p : Nat) (s : Interface), s.m_mod = none →
        Interface.exportAPIFunction sel (APIFnPtr.memberFn p) s =
          { s with m_scheduledExports :=
              s.m_scheduledExports ++ [ScheduledExport.mk sel (Sum.inl p)] } ∧
        Interface.exportAPIFunction sel (APIFnPtr.freeFn p) s =
          { s with m_scheduledExports :=
              s.m_scheduledExports ++ [ScheduledExport.mk sel (Sum.inr p)] }) ∧
    (∀ (sel : String) (p : Nat) (s : Interface) (m : Mod), s.m_mod = some m →
        Interface.exportAPIFunction sel (APIFnPtr.memberFn p) s =
          { s with m_mod := some (m.addExport sel (Sum.inl p)) } ∧
        Interface.exportAPIFunction sel (APIFnPtr.freeFn p) s =
          { s with m_mod := some (m.addExport sel (Sum.inr p)) }) := by
  refine ⟨fun sel p s => ⟨rfl, rfl⟩, ?_, ?_⟩
  · intro sel p s h
    constructor <;>
      simp [Interface.exportAPIFunction,
        Interface.exportAPIFunctionInternalMem,
        Interface.exportAPIFunctionInternalFree, h]
  · intro sel p s m h
    constructor <;>
      simp [Interface.exportAPIFunction,
        Interface.exportAPIFunctionInternalMem,
        Interface.exportAPIFunctionInternalFree, h]

/-- Witness for C7 at concrete unattached and attached states. -/
theorem exportAPIFunction_dispatch_witness :
    (Interface.exportAPIFunction "sel" (APIFnPtr.memberFn 9) Interface.initial =
        { Interface.initial with m_scheduledExports :=
            Interface.initial.m_scheduledExports ++
              [ScheduledExport.mk "sel" (Sum.inl 9)] } ∧
      Interface.exportAPIFunction "sel" (APIFnPtr.freeFn 9) Interface.initial =
        { Interface.initial with m_scheduledExports :=
            Interface.initial.m_scheduledExports ++
              [ScheduledExport.mk "sel" (Sum.inr 9)] }) ∧
    (Interface.exportAPIFunction "sel" (APIFnPtr.memberFn 9)
          (Interface.init Mod.fresh Interface.initial) =
        { Interface.init Mod.fresh Interface.initial with
            m_mod := some (Mod.fresh.addExport "sel" (Sum.inl 9)) } ∧
      Interface.exportAPIFunction "sel" (APIFnPtr.freeFn 9)
          (Interface.init Mod.fresh Interface.initial) =
        { Interface.init Mod.fresh Interface.initial with
            m_mod := some (Mod.fresh.addExport "sel" (Sum.inr 9)) }) :=
  ⟨exportAPIFunction_dispatch.2.1 "sel" 9 Interface.initial rfl,
   exportAPIFunction_dispatch.2.2 "sel" 9
     (Interface.init Mod.fresh Interface.initial) Mod.fresh rfl⟩

/-- C8: the single-argument `addHook(address)` overload equals the
two-argument overload with the display name defaulted to the empty
string, for every address and state. -/
theorem addHook_overload_defaults_name (conv a : Nat) (s : Interface) :
    Interface.addHookAddr conv a s = Interface.addHook conv "" a s :=
  rfl

/-- C9: a hook is never installed twice at the same target address (there
is no removal operation in the façade): over any scheduling calls before
attachment, the flush at `init`, and any calls after attachment, the
attached module's installed hooks always have pairwise-distinct
addresses — in particular two pre-attach `addHook` calls at one address
yield at most one install there. -/
theorem hooks_never_installed_twice (pre post : List SchedOp) :
    ((Interface.runOps
        ((Interface.runOps Interface.initial pre).init Mod.fresh)
        post).modHooks.map (fun hk => hk.address)).Nodup := by
  apply Interface.runOps_nodup
  rw [Interface.init_modHooks]
  exact Mod.replayHooks_nodup _ Mod.fresh (by simp [Mod.fresh])

/-- C10: while only scheduling calls have run (no `init`), the Interface's
Mod pointer is null, so `Mod::get<void>()`, the deprecated
`Interface::mod()`, and the dereferencing accessors `Interface::log()` and
`Log::get()` all resolve to the null module (the latter two hitting the
null dereference, modelled as `none`); those two accessors are defined
exactly when a Mod is attached. -/
theorem mod_null_before_init :
    (∀ (ops : List SchedOp),
        Mod.getVoid (Interface.runOps Interface.initial ops) = none ∧
        Interface.modAccessor (Interface.runOps Interface.initial ops) = none ∧
        Interface.logAccessor (Interface.runOps Interface.initial ops) = none ∧
        Log.get (Interface.runOps Interface.initial ops) = none) ∧
    (∀ (s : Interface),
        (Interface.logAccessor s).isSome = s.m_mod.isSome ∧
        (Log.get s).isSome = s.m_mod.isSome) := by
  constructor
  · intro ops
    have h := (Interface.runOps_unattached ops Interface.initial rfl).1
    refine ⟨h, h, ?_, ?_⟩ <;>
      simp [Interface.logAccessor, Log.get, Mod.getVoid, h]
  · intro s
    cases h : s.m_mod <;>
      simp [Interface.logAccessor, Log.get, Mod.getVoid, h]

end Geode
